import Mathlib

/-!
Verification of the processing-status state machine of the SimplyLegal React SPA
(`ProcessingScreen`), its smooth-progress animation hook, the upload
validation handler, and the mocked email sign-in, as shallow Lean embeddings
of the JavaScript source.

Numbers (`progress`, timestamps in milliseconds) are modelled as `ℚ`;
JavaScript `Math.round` is `⌊x + 1/2⌋`, `Math.floor` is `⌊·⌋`.
-/

namespace SimplyLegal

/-- JavaScript rounding: `Math.round x = ⌊x + 1/2⌋`. -/
def jround (q : ℚ) : ℤ := ⌊q + 1/2⌋

/-- JavaScript `a || b` on an optional string: `b` when `a` is absent or empty
(falsy), otherwise the string itself. -/
def jsOr (a : Option String) (b : String) : String :=
  match a with
  | none => b
  | some v => if v = "" then b else v

/-! ## Step lookup (`getCurrentStep`, ProcessingScreen lines 125-162) -/

/-- The raw step computed from `(status, message)` before ratcheting:
`status = completed ↦ 5`; `failed`/`error` ↦ 0; otherwise the
`messageToStep` table, then the `statusToStep` table, defaulting to 0.
The table values are all truthy in JS, so the truthiness lookup is an
if-chain. -/
def rawStep (status message : String) : Nat :=
  if status = "completed" then 5
  else if status = "failed" ∨ status = "error" then 0
  else if message = "Extracting text from document..." then 1
  else if message = "Performing AI analysis with Gemini..." then 2
  else if message = "Creating document summary..." then 2
  else if message = "Performing deep analysis..." then 3
  else if message = "Indexing document for search..." then 5
  else if message = "Document analysis completed successfully!" then 5
  else if status = "processing" then 1
  else if status = "analyzing" then 2
  else 0

/-- Source `getCurrentStep`: returns `(returned step, new highestStepReached)`.
The source updates `highestStepReached` when the raw step exceeds it and
returns `max currentStep highestStepReached`. -/
def getCurrentStep (status message : String) (highestStepReached : Nat) :
    Nat × Nat :=
  let currentStep := rawStep status message
  let newHighest :=
    if currentStep > highestStepReached then currentStep else highestStepReached
  (max currentStep highestStepReached, newHighest)

/-- The sequence of values `getCurrentStep` returns when fed a list of
`(status, message)` poll inputs in order, threading the
`highestStepReached` ratchet. -/
def stepOutputs (inputs : List (String × String)) (highest : Nat) : List Nat :=
  match inputs with
  | [] => []
  | (s, m) :: rest =>
    let r := getCurrentStep s m highest
    r.1 :: stepOutputs rest r.2

/-- The step labels rendered in the UI (`processingSteps`, lines 84-90):
five entries, indices 0-4. -/
def processingSteps : List String :=
  ["Upload", "Extract Text", "Create Summary", "Deep Analysis", "Index Document"]

/-! ## Progress computation (`calculateProgress`, lines 173-196) -/

/-- Weights `stepWeights` from `calculateProgress` (line 178). -/
def stepWeights : List ℚ := [5, 15, 20, 25, 25, 10]

/-- Durations `stepDurations` in seconds (line 93). -/
def stepDurations : List ℚ := [6, 18, 24, 30, 30, 12]

/-- Source `calculateProgress`: sum of completed-step weights plus time-proportional
partial credit for the current step, rounded and clamped to 100.
`now` and `lastProgressUpdate` are timestamps in milliseconds. -/
def calculateProgress (currentStep : Nat) (now lastProgressUpdate : ℚ) : ℚ :=
  let completed : ℚ := (stepWeights.take currentStep).sum
  let total : ℚ :=
    if currentStep < stepWeights.length then
      let timeSpent := now - lastProgressUpdate
      let stepDuration := stepDurations.getD currentStep 0 * 1000
      let stepProgress := min (timeSpent / stepDuration) 1
      completed + stepWeights.getD currentStep 0 * stepProgress
    else completed
  min (jround total : ℚ) 100

/-! ## Component state and transitions (ProcessingScreen) -/

/-- The ProcessingScreen state the claims are about: `status`, `message`,
`targetProgress`, `highestStepReached`, `lastProgressUpdate` and the `error`
banner. -/
structure PState where
  status : String
  message : String
  targetProgress : ℚ
  highestStepReached : Nat
  lastProgressUpdate : ℚ
  error : Option String
  deriving DecidableEq

/-- Initial state (lines 57-63): status `processing`, progress 0, no error. -/
def initState : PState :=
  { status := "processing"
    message := "Initializing document analysis..."
    targetProgress := 0
    highestStepReached := 0
    lastProgressUpdate := 0
    error := none }

/-- The poll-response handler `checkStatus` (lines 95-117), state part:
stores `status` and `message || status`; on `failed`/`error` it stores the
error banner. Scheduling decisions are modelled by `navScheduled` and
`nextPollScheduled`. -/
def applyResponse (s : PState) (rstatus : String) (rmessage : Option String) :
    PState :=
  let s1 := { s with status := rstatus, message := jsOr rmessage rstatus }
  if rstatus = "completed" then s1
  else if rstatus = "failed" ∨ rstatus = "error" then
    { s1 with
      error := some (jsOr rmessage "Document processing failed. Please try again.") }
  else s1

/-- The fixed delay (ms) before navigating to the document view after a
`completed` response (line 106). -/
def navigationDelay : ℚ := 2000

/-- The handler `checkStatus` schedules navigation to `/document/docId` exactly when the
response status is `completed` (lines 102-106). -/
def navScheduled (rstatus : String) : Bool := rstatus = "completed"

/-- The handler `checkStatus` schedules the next poll exactly when the response status is
none of `completed`, `failed`, `error` (lines 109-112). -/
def nextPollScheduled (rstatus : String) : Bool :=
  rstatus ≠ "completed" && rstatus ≠ "failed" && rstatus ≠ "error"

/-- The `[status, message]` effect (lines 225-233): recompute progress via
`getCurrentStep`/`calculateProgress`; when it exceeds `targetProgress`,
update `lastProgressUpdate` and raise `targetProgress`. -/
def pollProgressEffect (s : PState) (now : ℚ) : PState :=
  let step := getCurrentStep s.status s.message s.highestStepReached
  let s1 := { s with highestStepReached := step.2 }
  let newProgress := calculateProgress step.1 now s1.lastProgressUpdate
  if s1.targetProgress < newProgress then
    { s1 with targetProgress := newProgress, lastProgressUpdate := now }
  else s1

/-- The early-return branch of the interval effect (lines 237-241): when
status is `completed`, `targetProgress` is set to 100 (and no interval is
created). -/
def completedEffect (s : PState) : PState :=
  if s.status = "completed" then { s with targetProgress := 100 } else s

/-- One 600 ms tick of `progressInterval` (lines 243-251): recompute
progress; if it exceeds the target, advance by at most 1 toward it;
otherwise, when the target is below 99 and status is not `failed`, advance by
0.3 capped at 99. -/
def progressTick (s : PState) (now : ℚ) : PState :=
  let step := getCurrentStep s.status s.message s.highestStepReached
  let s1 := { s with highestStepReached := step.2 }
  let newProgress := calculateProgress step.1 now s1.lastProgressUpdate
  if s1.targetProgress < newProgress then
    { s1 with targetProgress := min (s1.targetProgress + 1) newProgress }
  else if s1.targetProgress < 99 ∧ s1.status ≠ "failed" then
    { s1 with targetProgress := min (s1.targetProgress + 3/10) 99 }
  else s1

/-- Events driving the ProcessingScreen state: a handled poll response
(response handling, the progress effect, and the completed branch of the
interval effect) or a 600 ms fallback tick. -/
inductive PEvent where
  | poll (rstatus : String) (rmessage : Option String) (now : ℚ)
  | tick (now : ℚ)

/-- Apply one event to the state. -/
def applyEvent (s : PState) (e : PEvent) : PState :=
  match e with
  | .poll rs rm now => completedEffect (pollProgressEffect (applyResponse s rs rm) now)
  | .tick now => progressTick s now

/-- Run a list of events from the initial state. -/
def run (es : List PEvent) : PState := es.foldl applyEvent initState

/-! ## Basic lemmas about the step ratchet -/

theorem getCurrentStep_fst (s m : String) (h : Nat) :
    (getCurrentStep s m h).1 = max (rawStep s m) h := rfl

theorem getCurrentStep_snd (s m : String) (h : Nat) :
    (getCurrentStep s m h).2 = max (rawStep s m) h := by
  unfold getCurrentStep
  have : (if rawStep s m > h then rawStep s m else h) = max (rawStep s m) h := by
    split_ifs with hh <;> omega
  simpa using this

theorem stepOutputs_cons (s m : String) (rest : List (String × String)) (h : Nat) :
    stepOutputs ((s, m) :: rest) h =
      max (rawStep s m) h :: stepOutputs rest (max (rawStep s m) h) := by
  show (getCurrentStep s m h).1 :: stepOutputs rest (getCurrentStep s m h).2 = _
  rw [getCurrentStep_fst, getCurrentStep_snd]

theorem stepOutputs_lower_bound (inputs : List (String × String)) :
    ∀ h : Nat, ∀ x ∈ stepOutputs inputs h, h ≤ x := by
  induction inputs with
  | nil => intro h x hx; simp [stepOutputs] at hx
  | cons p rest ih =>
    intro h x hx
    obtain ⟨s, m⟩ := p
    rw [stepOutputs_cons] at hx
    rcases List.mem_cons.mp hx with hx | hx
    · subst hx; exact le_max_right _ _
    · exact le_trans (le_max_right _ _) (ih (max (rawStep s m) h) x hx)

theorem stepOutputs_pairwise (inputs : List (String × String)) :
    ∀ h : Nat, List.Pairwise (· ≤ ·) (stepOutputs inputs h) := by
  induction inputs with
  | nil => intro h; simp [stepOutputs]
  | cons p rest ih =>
    intro h
    obtain ⟨s, m⟩ := p
    rw [stepOutputs_cons]
    exact List.Pairwise.cons
      (fun x hx => stepOutputs_lower_bound rest (max (rawStep s m) h) x hx)
      (ih (max (rawStep s m) h))

/-- C2: `highestStepReached` is a ratchet. Along any sequence of polled
`(status, message)` inputs: (i) `getCurrentStep` never stores a smaller
`highestStepReached` than the one it was given; (ii) every returned step is
at least the starting ratchet value; (iii) the returned steps are pairwise
non-decreasing, so once a step index `k` has been computed, every later call
returns a value `≥ k` — even when a later poll maps to a smaller raw step
(`failed`/`error` map to 0) or to no entry of the lookup tables. -/
theorem highestStep_ratchet (inputs : List (String × String)) (h0 : Nat) :
    (∀ s m h, h ≤ (getCurrentStep s m h).2 ∧ h ≤ (getCurrentStep s m h).1) ∧
    (∀ x ∈ stepOutputs inputs h0, h0 ≤ x) ∧
    List.Pairwise (· ≤ ·) (stepOutputs inputs h0) := by
  refine ⟨fun s m h => ?_, stepOutputs_lower_bound inputs h0,
    stepOutputs_pairwise inputs h0⟩
  rw [getCurrentStep_fst, getCurrentStep_snd]
  exact ⟨le_max_right _ _, le_max_right _ _⟩

/-- Witness for C2 at a concrete input sequence: a poll reporting `failed`
after step 3 was reached still yields a returned step of 3. -/
theorem highestStep_ratchet_witness :
    (0 : Nat) ≤ 3 ∧
    List.Pairwise (· ≤ ·)
      (stepOutputs [("processing", "Performing deep analysis..."), ("failed", "failed")] 0) := by
  have h := highestStep_ratchet [("processing", "Performing deep analysis..."), ("failed", "failed")] 0
  exact ⟨h.2.1 3 (by decide), h.2.2⟩

/-- C9: the raw step computed by the static lookup, before ratcheting, is
always one of `{0, 1, 2, 3, 5}`: index 4 is never produced, while the
rendered step list has five entries (indices 0-4), so the computed step
jumps from 3 directly to 5, past the last index of the displayed list. -/
theorem rawStep_range (s m : String) :
    (rawStep s m = 0 ∨ rawStep s m = 1 ∨ rawStep s m = 2 ∨
      rawStep s m = 3 ∨ rawStep s m = 5) ∧
    rawStep s m ≠ 4 ∧
    processingSteps.length = 5 ∧ processingSteps.length - 1 < 5 := by
  unfold rawStep
  split_ifs <;> simp [processingSteps]

/-! ## Monotonicity of targetProgress (C1) -/

theorem calculateProgress_le_100 (k : Nat) (now lu : ℚ) :
    calculateProgress k now lu ≤ 100 :=
  min_le_right _ _

theorem applyResponse_targetProgress (s : PState) (rs : String) (rm : Option String) :
    (applyResponse s rs rm).targetProgress = s.targetProgress := by
  unfold applyResponse; split_ifs <;> rfl

theorem pollProgressEffect_status (s : PState) (now : ℚ) :
    (pollProgressEffect s now).status = s.status := by
  unfold pollProgressEffect; dsimp only; split_ifs <;> rfl

theorem pollProgressEffect_error (s : PState) (now : ℚ) :
    (pollProgressEffect s now).error = s.error := by
  unfold pollProgressEffect; dsimp only; split_ifs <;> rfl

theorem completedEffect_error (s : PState) :
    (completedEffect s).error = s.error := by
  unfold completedEffect; split_ifs <;> rfl

theorem pollProgressEffect_mono (s : PState) (now : ℚ)
    (h : s.targetProgress ≤ 100) :
    s.targetProgress ≤ (pollProgressEffect s now).targetProgress ∧
      (pollProgressEffect s now).targetProgress ≤ 100 := by
  unfold pollProgressEffect
  dsimp only
  split_ifs with h1
  · exact ⟨le_of_lt h1, calculateProgress_le_100 _ _ _⟩
  · exact ⟨le_refl _, h⟩

theorem completedEffect_mono (s : PState) (h : s.targetProgress ≤ 100) :
    s.targetProgress ≤ (completedEffect s).targetProgress ∧
      (completedEffect s).targetProgress ≤ 100 := by
  unfold completedEffect
  split_ifs
  · exact ⟨h, le_refl _⟩
  · exact ⟨le_refl _, h⟩

theorem progressTick_mono (s : PState) (now : ℚ)
    (h : s.targetProgress ≤ 100) :
    s.targetProgress ≤ (progressTick s now).targetProgress ∧
      (progressTick s now).targetProgress ≤ 100 := by
  unfold progressTick
  dsimp only
  split_ifs with h1 h2
  · exact ⟨le_min (by linarith) (le_of_lt h1),
      le_trans (min_le_right _ _) (calculateProgress_le_100 _ _ _)⟩
  · exact ⟨le_min (by linarith) (le_of_lt h2.1),
      le_trans (min_le_right _ _) (by norm_num)⟩
  · exact ⟨le_refl _, h⟩

theorem applyEvent_mono (s : PState) (e : PEvent) (h : s.targetProgress ≤ 100) :
    s.targetProgress ≤ (applyEvent s e).targetProgress ∧
      (applyEvent s e).targetProgress ≤ 100 := by
  cases e with
  | poll rs rm now =>
    show s.targetProgress ≤
        (completedEffect (pollProgressEffect (applyResponse s rs rm) now)).targetProgress ∧ _
    have h0 : (applyResponse s rs rm).targetProgress = s.targetProgress :=
      applyResponse_targetProgress s rs rm
    have h1 := pollProgressEffect_mono (applyResponse s rs rm) now (h0 ▸ h)
    have h2 := completedEffect_mono (pollProgressEffect (applyResponse s rs rm) now) h1.2
    exact ⟨le_trans (h0 ▸ h1.1) h2.1, h2.2⟩
  | tick now => exact progressTick_mono s now h

theorem run_targetProgress_le_100 (es : List PEvent) :
    (run es).targetProgress ≤ 100 := by
  have key : ∀ (l : List PEvent) (s : PState), s.targetProgress ≤ 100 →
      (l.foldl applyEvent s).targetProgress ≤ 100 := by
    intro l
    induction l with
    | nil => intro s h; exact h
    | cons e rest ih =>
      intro s h
      exact ih (applyEvent s e) (applyEvent_mono s e h).2
  exact key es initState (by norm_num [initState])

/-- C1: over every session (any sequence of handled poll responses and 600 ms
fallback ticks from the initial state), `targetProgress` stays within
`[0, 100]`-bounded territory (`≤ 100`) and no update — poll-driven recompute,
fallback tick, or the completed transition that forces 100 — ever assigns
`targetProgress` a value smaller than its current value. -/
theorem targetProgress_nondecreasing (es : List PEvent) (e : PEvent) :
    (run es).targetProgress ≤ 100 ∧
    (run es).targetProgress ≤ (applyEvent (run es) e).targetProgress :=
  ⟨run_targetProgress_le_100 es,
    (applyEvent_mono (run es) e (run_targetProgress_le_100 es)).1⟩

/-! ## Terminal transitions of checkStatus (C3) -/

theorem applyEvent_poll_completed (s : PState) (rm : Option String) (now : ℚ) :
    (applyEvent s (.poll "completed" rm now)).targetProgress = 100 := by
  show (completedEffect (pollProgressEffect (applyResponse s "completed" rm) now)).targetProgress
      = 100
  have h1 : (applyResponse s "completed" rm).status = "completed" := rfl
  have h2 : (pollProgressEffect (applyResponse s "completed" rm) now).status = "completed" := by
    rw [pollProgressEffect_status, h1]
  unfold completedEffect
  rw [h2, if_pos rfl]

theorem applyResponse_error_terminal (s : PState) (rs : String) (rm : Option String)
    (h : rs = "failed" ∨ rs = "error") :
    (applyResponse s rs rm).error =
      some (jsOr rm "Document processing failed. Please try again.") := by
  unfold applyResponse
  rw [if_neg (by rcases h with h | h <;> simp [h]), if_pos h]

/-- C3: terminal transitions of the poll-response handler. On a `completed`
response, navigation to the document view is scheduled (exactly once, after
the fixed `navigationDelay` of 2000 ms), no further status request is
scheduled, and `targetProgress` reaches exactly 100. On `failed` or `error`,
the error is surfaced in the error banner, no further status request is
scheduled, and no navigation is scheduled. On any other status the next poll
is scheduled and no navigation happens. -/
theorem checkStatus_terminal (s : PState) (rs : String) (rm : Option String) (now : ℚ) :
    (rs = "completed" →
      navScheduled rs = true ∧ nextPollScheduled rs = false ∧
      navigationDelay = 2000 ∧
      (applyEvent s (.poll rs rm now)).targetProgress = 100) ∧
    (rs = "failed" ∨ rs = "error" →
      (applyEvent s (.poll rs rm now)).error =
        some (jsOr rm "Document processing failed. Please try again.") ∧
      navScheduled rs = false ∧ nextPollScheduled rs = false) ∧
    (rs ≠ "completed" → rs ≠ "failed" → rs ≠ "error" →
      nextPollScheduled rs = true ∧ navScheduled rs = false) := by
  refine ⟨fun hc => ?_, fun ht => ?_, fun h1 h2 h3 => ?_⟩
  · subst hc
    exact ⟨rfl, rfl, rfl, applyEvent_poll_completed s rm now⟩
  · have hne : rs ≠ "completed" := by rcases ht with h | h <;> simp [h]
    refine ⟨?_, ?_, ?_⟩
    · show (completedEffect (pollProgressEffect (applyResponse s rs rm) now)).error = _
      rw [completedEffect_error, pollProgressEffect_error,
        applyResponse_error_terminal s rs rm ht]
    · simp [navScheduled, hne]
    · rcases ht with h | h <;> simp [nextPollScheduled, h]
  · refine ⟨?_, ?_⟩
    · simp [nextPollScheduled, h1, h2, h3]
    · simp [navScheduled, h1]

/-- Witness for C3: a concrete `completed` response navigates with
`targetProgress` 100, a concrete `failed` response stops polling without
navigating, and a concrete `processing` response keeps polling. -/
theorem checkStatus_terminal_witness :
    (navScheduled "completed" = true ∧
      (applyEvent initState (.poll "completed" none 1000)).targetProgress = 100) ∧
    (navScheduled "failed" = false ∧ nextPollScheduled "failed" = false) ∧
    nextPollScheduled "processing" = true := by
  have hc := (checkStatus_terminal initState "completed" none 1000).1 rfl
  have hf := (checkStatus_terminal initState "failed" none 1000).2.1 (Or.inl rfl)
  have hp := (checkStatus_terminal initState "processing" none 1000).2.2
    (by decide) (by decide) (by decide)
  exact ⟨⟨hc.1, hc.2.2.2⟩, ⟨hf.2.1, hf.2.2⟩, hp.1⟩

/-! ## Scenario (C5) -/

/-- The poll inputs of the spec scenario, as `(status, message)` pairs: a bare
status arrives with `message = status` (the handler stores
`message || status`). -/
def demoInputs : List (String × String) :=
  [("processing", "processing"),
   ("analyzing", "analyzing"),
   ("analyzing", "Performing deep analysis..."),
   ("analyzing", "Indexing document for search..."),
   ("completed", "completed")]

/-- The same scenario as a sequence of poll events. -/
def demoPolls : List PEvent :=
  [.poll "processing" none 1000,
   .poll "analyzing" none 3000,
   .poll "analyzing" (some "Performing deep analysis...") 5000,
   .poll "analyzing" (some "Indexing document for search...") 7000,
   .poll "completed" none 9000]

/-- C5: feeding the step lookup, in order, status `processing`, status
`analyzing`, message `Performing deep analysis...`, message
`Indexing document for search...`, and status `completed` yields the step
sequence `[1, 2, 3, 5, 5]`, and running the corresponding poll events leaves
`targetProgress` at exactly 100. -/
theorem scenario_step_sequence :
    stepOutputs demoInputs 0 = [1, 2, 3, 5, 5] ∧
    (run demoPolls).targetProgress = 100 := by
  constructor
  · decide
  · show (applyEvent (List.foldl applyEvent initState
      [.poll "processing" none 1000,
       .poll "analyzing" none 3000,
       .poll "analyzing" (some "Performing deep analysis...") 5000,
       .poll "analyzing" (some "Indexing document for search...") 7000])
      (.poll "completed" none 9000)).targetProgress = 100
    exact applyEvent_poll_completed _ none 9000

/-! ## The 600 ms fallback tick (C6) -/

/-- The progress the interval tick recomputes from the current state. -/
def tickProgress (s : PState) (now : ℚ) : ℚ :=
  calculateProgress (getCurrentStep s.status s.message s.highestStepReached).1
    now s.lastProgressUpdate

theorem progressTick_init_600 :
    (progressTick initState 600).targetProgress = 1 := by
  have hcs : getCurrentStep "processing" "Initializing document analysis..." 0 = (1, 1) := by
    decide
  have hcp : calculateProgress 1 600 0 = 6 := by
    norm_num [calculateProgress, stepWeights, stepDurations, jround, min_def]
  unfold progressTick
  dsimp only [initState]
  rw [hcs]
  dsimp only
  rw [hcp]
  norm_num [min_def]

/-- C6 counterexample: at the initial state with a tick at 600 ms, the
preconditions of the claim hold (`targetProgress = 0 < 99`, status is
`processing`, not `failed`), yet the tick increases `targetProgress` by 1 —
the catch-up branch toward the recomputed progress — not by approximately
0.3: the increment differs from 0.3 by 0.7. -/
theorem fallback_tick_not_approx_03 :
    initState.targetProgress < 99 ∧ initState.status ≠ "failed" ∧
    (progressTick initState 600).targetProgress - initState.targetProgress = 1 ∧
    ¬(|(1 : ℚ) - 3/10| ≤ 1/2) := by
  refine ⟨by norm_num [initState], by decide, ?_, by norm_num [abs]⟩
  rw [progressTick_init_600]
  norm_num [initState]

/-- C6 (amended): on every 600 ms fallback tick with `targetProgress < 99`
and status not `failed`, `targetProgress` strictly increases — but not always
by ≈0.3: when the recomputed progress does not exceed the current target the
increment is the fallback `min(target + 0.3, 99) - target`, and when the
recomputed progress exceeds the target the tick instead advances by up to 1
toward it, to `min(target + 1, recomputed)`. -/
theorem fallback_tick_increases (s : PState) (now : ℚ)
    (h99 : s.targetProgress < 99) (hf : s.status ≠ "failed") :
    s.targetProgress < (progressTick s now).targetProgress ∧
    (¬ s.targetProgress < tickProgress s now →
      (progressTick s now).targetProgress = min (s.targetProgress + 3/10) 99) ∧
    (s.targetProgress < tickProgress s now →
      (progressTick s now).targetProgress
        = min (s.targetProgress + 1) (tickProgress s now)) := by
  unfold progressTick tickProgress
  dsimp only
  split_ifs with h1 h2
  · exact ⟨lt_min (by linarith) h1, fun hn => absurd h1 hn, fun _ => rfl⟩
  · exact ⟨lt_min (by linarith) h99, fun _ => rfl, fun hc => absurd hc h1⟩
  · exact absurd ⟨h99, hf⟩ h2

/-- Witness for C6 (amended) at the initial state and a tick at 600 ms. -/
theorem fallback_tick_increases_witness :
    initState.targetProgress < (progressTick initState 600).targetProgress :=
  (fallback_tick_increases initState 600 (by norm_num [initState]) (by decide)).1

/-! ## Remaining-time estimate (C7) -/

/-- The static total-duration assumption, `estimatedDuration` (line 65):
120000 ms, i.e. two minutes. -/
def estimatedDuration : ℚ := 120000

/-- Source `calculateRemainingTime` (lines 199-212): 0 when completed;
otherwise, when `smoothProgress / 100 > 0`, the clamped difference
`max(0, estimatedDuration - elapsed)` in rounded seconds; otherwise the full
static estimate in rounded seconds. Not derived from throughput. -/
def calculateRemainingTime (status : String) (smoothProgress now startTime : ℚ) : ℤ :=
  if status = "completed" then 0
  else
    let elapsed := now - startTime
    let progress := smoothProgress / 100
    if 0 < progress then jround (max 0 (estimatedDuration - elapsed) / 1000)
    else jround (estimatedDuration / 1000)

/-- The formula the claim states for every call, for comparison:
`max(0, estimatedTotalDuration - elapsedSinceStart)` converted to seconds. -/
def specRemainingTime (now startTime : ℚ) : ℤ :=
  jround (max 0 (estimatedDuration - (now - startTime)) / 1000)

/-- C7 counterexample: with status `processing`, `smoothProgress = 0`, and
5000 ms elapsed since start, the code returns the full static 120 s while the
claimed formula gives 115 s, so the estimate does not equal the formula for
every call. -/
theorem remainingTime_not_always_formula :
    calculateRemainingTime "processing" 0 5000 0 = 120 ∧
    specRemainingTime 5000 0 = 115 ∧
    calculateRemainingTime "processing" 0 5000 0 ≠ specRemainingTime 5000 0 := by
  have h1 : calculateRemainingTime "processing" 0 5000 0 = 120 := by
    unfold calculateRemainingTime
    rw [if_neg (by decide : ¬("processing" = "completed"))]
    norm_num [estimatedDuration, jround]
  have h2 : specRemainingTime 5000 0 = 115 := by
    norm_num [specRemainingTime, estimatedDuration, jround, max_def]
  exact ⟨h1, h2, by rw [h1, h2]; norm_num⟩

/-- C7 (amended): the remaining-time estimate equals
`max(0, estimatedTotalDuration - elapsedSinceStart)` in rounded seconds with
the static 120 s assumption only when status is not `completed` and
`smoothProgress` is positive; when status is `completed` it is 0, and when
`smoothProgress` is 0 (or negative) it is the full static estimate
regardless of elapsed time. It is never derived from actual throughput. -/
theorem remainingTime_amended (status : String) (sp now st : ℚ) :
    (status = "completed" → calculateRemainingTime status sp now st = 0) ∧
    (status ≠ "completed" → 0 < sp →
      calculateRemainingTime status sp now st = specRemainingTime now st) ∧
    (status ≠ "completed" → sp ≤ 0 →
      calculateRemainingTime status sp now st = jround (estimatedDuration / 1000)) := by
  refine ⟨fun h => ?_, fun h hp => ?_, fun h hp => ?_⟩
  · unfold calculateRemainingTime
    rw [if_pos h]
  · unfold calculateRemainingTime specRemainingTime
    dsimp only
    rw [if_neg h, if_pos (by linarith : (0 : ℚ) < sp / 100)]
  · unfold calculateRemainingTime
    dsimp only
    rw [if_neg h, if_neg (not_lt.mpr (by linarith : sp / 100 ≤ 0))]

/-- Witness for C7 (amended) at a concrete non-terminal call with positive
smooth progress. -/
theorem remainingTime_amended_witness :
    calculateRemainingTime "uploading" 50 1000 0 = specRemainingTime 1000 0 :=
  (remainingTime_amended "uploading" 50 1000 0).2.1 (by decide) (by norm_num)

/-! ## Smooth-progress animation (`useSmoothProgress`, lines 10-52; C4) -/

/-- The animation duration the component passes to `useSmoothProgress`
(line 68): 3000 ms. -/
def animDuration : ℚ := 3000

/-- State of the `useSmoothProgress` hook: the rendered `smoothProgress`,
the `endProgress` target of the current animation, and the
`startProgress`/`startTime` captured when the effect last ran. -/
structure AnimState where
  smooth : ℚ
  target : ℚ
  startP : ℚ
  startT : ℚ
  deriving DecidableEq

/-- Initial hook state: `smoothProgress = 0`, initial `targetProgress` 0. -/
def animInit : AnimState := ⟨0, 0, 0, 0⟩

/-- One animation-frame callback (lines 26-38): with
`totalSteps = endProgress - startProgress` and
`stepDuration = duration / totalSteps`, sets `smoothProgress` to
`min(startProgress + ⌊elapsed / stepDuration⌋, endProgress)`. Frames are only
scheduled when `totalSteps > 0` (line 40), so otherwise nothing changes. -/
def frameUpdate (a : AnimState) (now : ℚ) : AnimState :=
  let totalSteps := a.target - a.startP
  if 0 < totalSteps then
    let stepDuration := animDuration / totalSteps
    let currentStep : ℤ := ⌊(now - a.startT) / stepDuration⌋
    { a with smooth := min (a.startP + (currentStep : ℚ)) a.target }
  else a

/-- Events of the hook: the effect re-runs with a new `targetProgress`
(capturing `startProgress := smoothProgress` and `startTime := now`,
lines 20-22), or an animation frame fires. -/
inductive AnimEvent where
  | retarget (t now : ℚ)
  | frame (now : ℚ)

/-- Apply one hook event. -/
def applyAnim (a : AnimState) (e : AnimEvent) : AnimState :=
  match e with
  | .retarget t now => { a with target := t, startP := a.smooth, startT := now }
  | .frame now => frameUpdate a now

/-- Validity of an event trace from a state: retargets never lower the
target (the component only ever raises `targetProgress`, see C1), and a frame
never fires before the `startTime` of the animation it belongs to
(`performance.now` is monotone). -/
def validFrom (a : AnimState) : List AnimEvent → Bool
  | [] => true
  | e :: es =>
    (match e with
     | .retarget t _ => decide (a.target ≤ t)
     | .frame now => decide (a.startT ≤ now)) && validFrom (applyAnim a e) es

/-- Run a list of hook events from the initial state. -/
def runAnim (es : List AnimEvent) : AnimState := es.foldl applyAnim animInit

theorem frameUpdate_startP (a : AnimState) (now : ℚ) :
    (frameUpdate a now).startP = a.startP := by
  unfold frameUpdate; dsimp only; split_ifs <;> rfl

theorem frameUpdate_target (a : AnimState) (now : ℚ) :
    (frameUpdate a now).target = a.target := by
  unfold frameUpdate; dsimp only; split_ifs <;> rfl

theorem frameUpdate_inv (a : AnimState) (now : ℚ)
    (h1 : a.startP ≤ a.smooth) (h2 : a.smooth ≤ a.target) (hnow : a.startT ≤ now) :
    (frameUpdate a now).startP ≤ (frameUpdate a now).smooth ∧
      (frameUpdate a now).smooth ≤ (frameUpdate a now).target := by
  unfold frameUpdate
  dsimp only
  split_ifs with h
  · have hq : (0 : ℚ) ≤ (now - a.startT) / (animDuration / (a.target - a.startP)) := by
      apply div_nonneg (by linarith)
      apply div_nonneg (by norm_num [animDuration]) (by linarith)
    have hcs : (0 : ℚ) ≤ ((⌊(now - a.startT) / (animDuration / (a.target - a.startP))⌋ : ℤ) : ℚ) := by
      exact_mod_cast Int.floor_nonneg.mpr hq
    exact ⟨le_min (by linarith) (by linarith), min_le_right _ _⟩
  · exact ⟨h1, h2⟩

theorem runAnim_inv :
    ∀ (es : List AnimEvent) (a : AnimState),
      a.startP ≤ a.smooth → a.smooth ≤ a.target → validFrom a es = true →
      (es.foldl applyAnim a).startP ≤ (es.foldl applyAnim a).smooth ∧
        (es.foldl applyAnim a).smooth ≤ (es.foldl applyAnim a).target := by
  intro es
  induction es with
  | nil => intro a h1 h2 _; exact ⟨h1, h2⟩
  | cons e rest ih =>
    intro a h1 h2 hv
    cases e with
    | retarget t now =>
      rw [show validFrom a (AnimEvent.retarget t now :: rest) =
          (decide (a.target ≤ t) &&
            validFrom (applyAnim a (AnimEvent.retarget t now)) rest) from rfl,
        Bool.and_eq_true] at hv
      have ht : a.target ≤ t := of_decide_eq_true hv.1
      exact ih { a with target := t, startP := a.smooth, startT := now }
        (le_refl _) (by dsimp only; linarith) hv.2
    | frame now =>
      rw [show validFrom a (AnimEvent.frame now :: rest) =
          (decide (a.startT ≤ now) &&
            validFrom (applyAnim a (AnimEvent.frame now)) rest) from rfl,
        Bool.and_eq_true] at hv
      have hn : a.startT ≤ now := of_decide_eq_true hv.1
      have hf := frameUpdate_inv a now h1 h2 hn
      exact ih (frameUpdate a now) hf.1 hf.2 hv.2

theorem frame_converges (a : AnimState)
    (h1 : a.startP ≤ a.smooth) (h2 : a.smooth ≤ a.target) (now : ℚ)
    (hd : a.startT + animDuration ≤ now) :
    (frameUpdate a now).smooth ≤ a.target ∧
      a.target - (frameUpdate a now).smooth < 1 := by
  unfold frameUpdate
  dsimp only
  split_ifs with h
  · refine ⟨min_le_right _ _, ?_⟩
    set ts : ℚ := a.target - a.startP with hts
    set q : ℚ := (now - a.startT) / (animDuration / ts) with hqdef
    have hq : ts ≤ q := by
      rw [hqdef, div_div_eq_mul_div, le_div_iff (by norm_num [animDuration])]
      have h3000 : animDuration ≤ now - a.startT := by linarith
      nlinarith [h3000, h]
    have hfl : (ts : ℚ) - 1 < ((⌊q⌋ : ℤ) : ℚ) :=
      lt_of_le_of_lt (by linarith) (Int.sub_one_lt_floor q)
    have hmin : a.target - 1 < min (a.startP + ((⌊q⌋ : ℤ) : ℚ)) a.target :=
      lt_min (by linarith) (by linarith)
    linarith
  · have : a.target ≤ a.startP := by linarith [not_lt.mp h]
    have hsm : a.smooth = a.target := le_antisymm h2 (by linarith)
    rw [hsm]
    norm_num

/-- C4: for every reachable state of the smooth-progress animation (any
valid trace of retargets with a non-decreasing target and of animation
frames), `smoothProgress` never exceeds `targetProgress`; and once the fixed
`animDuration` (3000 ms) has elapsed since the target last changed, the next
frame puts `smoothProgress` within 1 percentage point of `targetProgress`
(and still not above it). -/
theorem smoothProgress_tracks (es : List AnimEvent)
    (hv : validFrom animInit es = true) :
    (runAnim es).smooth ≤ (runAnim es).target ∧
    ∀ now : ℚ, (runAnim es).startT + animDuration ≤ now →
      (frameUpdate (runAnim es) now).smooth ≤ (runAnim es).target ∧
      (runAnim es).target - (frameUpdate (runAnim es) now).smooth < 1 := by
  have hinv := runAnim_inv es animInit (le_refl _) (le_refl _) hv
  exact ⟨hinv.2, fun now hnow => frame_converges (runAnim es) hinv.1 hinv.2 now hnow⟩

/-- Witness for C4 on a concrete valid trace: retarget to 50 at time 0,
then a frame at 1500 ms. -/
theorem smoothProgress_tracks_witness :
    validFrom animInit [AnimEvent.retarget 50 0, AnimEvent.frame 1500] = true ∧
    (runAnim [AnimEvent.retarget 50 0, AnimEvent.frame 1500]).smooth ≤
      (runAnim [AnimEvent.retarget 50 0, AnimEvent.frame 1500]).target := by
  have hv : validFrom animInit [AnimEvent.retarget 50 0, AnimEvent.frame 1500] = true := by
    decide
  exact ⟨hv, (smoothProgress_tracks _ hv).1⟩

/-! ## Upload validation (`onDrop` / `handleUpload`, DocumentUpload; C8) -/

/-- A dropped file: name, MIME type, size in bytes. -/
structure FileInfo where
  name : String
  type : String
  size : Nat
  deriving DecidableEq

/-- The upload-component state the claim is about: the selected file, the
derived custom name, and the inline error message. -/
structure UploadState where
  selectedFile : Option FileInfo
  customName : String
  uploadError : Option String
  deriving DecidableEq

/-- The `allowedTypes` list from `onDrop` (lines 129-136): PDF, JPEG, PNG
and Word MIME types. -/
def allowedTypes : List String :=
  ["application/pdf",
   "image/jpeg",
   "image/png",
   "image/jpg",
   "application/vnd.openxmlformats-officedocument.wordprocessingml.document",
   "application/msword"]

/-- The 10 MB size limit (`maxSize`, line 143). -/
def maxSize : Nat := 10 * 1024 * 1024

/-- JavaScript `name.replace(/\.[^/.]+$/, Empty)`: drop a final extension —
a dot followed by one or more characters none of which is a dot or slash at
the end of the string. -/
def stripExtension (name : String) : String :=
  let r := name.data.reverse
  let ext := r.takeWhile (fun c => !(c == '.') && !(c == '/'))
  match r.drop ext.length with
  | '.' :: rest => if ext.isEmpty then name else String.mk rest.reverse
  | _ => name

/-- Source `onDrop` (lines 124-153): take the first accepted file; reject it
with an inline error when its MIME type is not allowed or it exceeds 10 MB
(leaving the selection untouched); otherwise select it, derive the custom
name, and clear the error. The preview generation is presentation-only and
not modelled. -/
def onDrop (st : UploadState) (acceptedFiles : List FileInfo) : UploadState :=
  match acceptedFiles with
  | [] => st
  | file :: _ =>
    if !(allowedTypes.contains file.type) then
      { st with
        uploadError := some "Please upload a PDF, Word document, or image file (JPEG, PNG)" }
    else if file.size > maxSize then
      { st with uploadError := some "File size must be less than 10MB" }
    else
      { selectedFile := some file
        customName := stripExtension file.name
        uploadError := none }

/-- Source `handleUpload` (lines 169-214) returns immediately when no file is
selected, and the network upload request is issued only after that guard:
from a given state a request can be issued iff a file is selected. -/
def uploadRequestIssued (st : UploadState) : Bool := st.selectedFile.isSome

/-- C8: dropping a file whose MIME type is not in the allowed set or whose
size exceeds the 10 MB limit, with no file currently selected, sets an inline
error message, leaves no file selected, and `handleUpload` cannot issue any
network request from the resulting state — the rejection happens before any
network call. -/
theorem invalid_drop_rejected (st : UploadState) (f : FileInfo) (rest : List FileInfo)
    (hnone : st.selectedFile = none)
    (hbad : allowedTypes.contains f.type = false ∨ maxSize < f.size) :
    ((onDrop st (f :: rest)).uploadError).isSome = true ∧
    (onDrop st (f :: rest)).selectedFile = none ∧
    uploadRequestIssued (onDrop st (f :: rest)) = false := by
  unfold onDrop uploadRequestIssued
  dsimp only
  split_ifs with h1 h2
  · simp [hnone]
  · simp [hnone]
  · exfalso
    rcases hbad with hb | hb
    · simp at hb h1
      exact hb h1
    · exact h2 hb

/-- Witness for C8: dropping an executable from a pristine state is
rejected inline. -/
theorem invalid_drop_rejected_witness :
    ((onDrop ⟨none, "", none⟩ [⟨"malware.exe", "application/x-msdownload", 100⟩]).uploadError).isSome = true ∧
    (onDrop ⟨none, "", none⟩ [⟨"malware.exe", "application/x-msdownload", 100⟩]).selectedFile = none ∧
    uploadRequestIssued (onDrop ⟨none, "", none⟩ [⟨"malware.exe", "application/x-msdownload", 100⟩]) = false :=
  invalid_drop_rejected ⟨none, "", none⟩ ⟨"malware.exe", "application/x-msdownload", 100⟩ []
    rfl (Or.inl (by decide))

/-! ## Mock email sign-in (auth context; C10) -/

/-- The two built-in mock users (auth lines 4-7). -/
structure MockUser where
  email : String
  password : String
  name : String
  deriving DecidableEq

/-- The `mockUsers` list. -/
def mockUsers : List MockUser :=
  [⟨"demo@example.com", "demo123", "Demo User"⟩,
   ⟨"test@example.com", "test123", "Test User"⟩]

/-- The `userData` object built on successful sign-in. -/
structure UserData where
  email : String
  name : String
  provider : String
  deriving DecidableEq

/-- Auth-context state: the current `user`, the persisted `user` storage
entry (localStorage), the `error` banner and the `loading` flag. -/
structure AuthState where
  user : Option UserData
  storage : Option UserData
  error : Option String
  loading : Bool
  deriving DecidableEq

/-- Source `signInWithEmail` (lines 60-89): look the `(email, password)`
pair up in `mockUsers`; on a hit, set and persist the derived user data and
return it; on a miss, throw `Invalid email or password` (stored in the error
state) and leave user state and storage untouched. `loading` ends false
either way. -/
def signInWithEmail (st : AuthState) (email password : String) :
    AuthState × Except String UserData :=
  match mockUsers.find? (fun u => u.email == email && u.password == password) with
  | some u =>
    let userData : UserData := ⟨u.email, u.name, "email"⟩
    ({ st with user := some userData, storage := some userData,
               error := none, loading := false },
     Except.ok userData)
  | none =>
    ({ st with error := some "Invalid email or password", loading := false },
     Except.error "Invalid email or password")

/-- C10: `signInWithEmail` succeeds iff the `(email, password)` pair exactly
matches one of the two built-in mock users; for every non-matching pair it
throws `Invalid email or password` and leaves both the current user state
and the persisted storage entry unchanged. -/
theorem signInWithEmail_mock (st : AuthState) (email password : String) :
    ((∃ u, (signInWithEmail st email password).2 = Except.ok u) ↔
      ((email = "demo@example.com" ∧ password = "demo123") ∨
       (email = "test@example.com" ∧ password = "test123"))) ∧
    (¬((email = "demo@example.com" ∧ password = "demo123") ∨
       (email = "test@example.com" ∧ password = "test123")) →
      (signInWithEmail st email password).2 = Except.error "Invalid email or password" ∧
      (signInWithEmail st email password).1.user = st.user ∧
      (signInWithEmail st email password).1.storage = st.storage) := by
  by_cases hd : email = "demo@example.com" ∧ password = "demo123"
  · have hfind : mockUsers.find? (fun u => u.email == email && u.password == password)
        = some ⟨"demo@example.com", "demo123", "Demo User"⟩ := by
      rw [show mockUsers = (⟨"demo@example.com", "demo123", "Demo User"⟩ : MockUser) ::
        [⟨"test@example.com", "test123", "Test User"⟩] from rfl]
      apply List.find?_cons_of_pos
      rw [hd.1, hd.2]
      decide
    unfold signInWithEmail
    rw [hfind]
    exact ⟨iff_of_true ⟨_, rfl⟩ (Or.inl hd), fun hn => absurd (Or.inl hd) hn⟩
  · by_cases ht : email = "test@example.com" ∧ password = "test123"
    · have hne1 : ¬(("demo@example.com" : String) == email &&
          ("demo123" : String) == password) = true := by
        rw [ht.1, ht.2]; decide
      have hstep : mockUsers.find? (fun u => u.email == email && u.password == password)
          = List.find? (fun u : MockUser => u.email == email && u.password == password)
            [⟨"test@example.com", "test123", "Test User"⟩] := by
        apply List.find?_cons_of_neg
        exact hne1
      have hpos : List.find? (fun u : MockUser => u.email == email && u.password == password)
          [⟨"test@example.com", "test123", "Test User"⟩]
          = some ⟨"test@example.com", "test123", "Test User"⟩ := by
        apply List.find?_cons_of_pos
        rw [ht.1, ht.2]
        decide
      have hfind : mockUsers.find? (fun u => u.email == email && u.password == password)
          = some ⟨"test@example.com", "test123", "Test User"⟩ := hstep.trans hpos
      unfold signInWithEmail
      rw [hfind]
      exact ⟨iff_of_true ⟨_, rfl⟩ (Or.inr ht), fun hn => absurd (Or.inr ht) hn⟩
    · have hne1 : ¬(("demo@example.com" : String) == email &&
          ("demo123" : String) == password) = true := by
        intro hc
        rw [Bool.and_eq_true, beq_iff_eq, beq_iff_eq] at hc
        exact hd ⟨hc.1.symm, hc.2.symm⟩
      have hne2 : ¬(("test@example.com" : String) == email &&
          ("test123" : String) == password) = true := by
        intro hc
        rw [Bool.and_eq_true, beq_iff_eq, beq_iff_eq] at hc
        exact ht ⟨hc.1.symm, hc.2.symm⟩
      have hstep1 : mockUsers.find? (fun u => u.email == email && u.password == password)
          = List.find? (fun u : MockUser => u.email == email && u.password == password)
            [⟨"test@example.com", "test123", "Test User"⟩] := by
        apply List.find?_cons_of_neg
        exact hne1
      have hstep2 : List.find? (fun u : MockUser => u.email == email && u.password == password)
          [⟨"test@example.com", "test123", "Test User"⟩]
          = List.find? (fun u : MockUser => u.email == email && u.password == password) [] := by
        apply List.find?_cons_of_neg
        exact hne2
      have hfind : mockUsers.find? (fun u => u.email == email && u.password == password)
          = none := hstep1.trans (hstep2.trans rfl)
      unfold signInWithEmail
      rw [hfind]
      refine ⟨iff_of_false ?_ ?_, fun _ => ⟨rfl, rfl, rfl⟩⟩
      · rintro ⟨u, hu⟩
        exact Except.noConfusion hu
      · rintro (h | h)
        · exact hd h
        · exact ht h

/-- Witness for C10: a non-matching pair throws and leaves state and
storage unchanged. -/
theorem signInWithEmail_mock_witness :
    (signInWithEmail ⟨none, none, none, true⟩ "nobody@example.com" "pw").2
      = Except.error "Invalid email or password" ∧
    (signInWithEmail ⟨none, none, none, true⟩ "nobody@example.com" "pw").1.user
      = (⟨none, none, none, true⟩ : AuthState).user ∧
    (signInWithEmail ⟨none, none, none, true⟩ "nobody@example.com" "pw").1.storage
      = (⟨none, none, none, true⟩ : AuthState).storage :=
  (signInWithEmail_mock ⟨none, none, none, true⟩ "nobody@example.com" "pw").2 (by decide)

end SimplyLegal
